import Mathlib

/-!
Verification of the GoMode dashboard data pipeline (src/app.py).

The pipeline is embedded shallowly:
* a pandas timestamp is an `Option ℤ` (nanoseconds since the epoch; `none` is `NaT`),
* `pd.to_datetime(col, errors='coerce')` is modelled by an abstract string parser
  `parse : String → Option ℤ` applied through `Option.bind` (a missing cell or an
  unparsable value both become `none`, never an error),
* `(b - a).dt.days` is floor division of the nanosecond difference by the number
  of nanoseconds in a day (pandas `Timedelta.days` floors toward `-∞`),
* `Series.str.lower().str.contains(tok)` is substring containment over the
  character list mapped through `pyLower`, a model of Python's Unicode
  `str.lower()` covering the ASCII and Latin-1 uppercase letters (the
  alphabet of the French status strings, in particular `É` → `é`),
* `sort_values(ascending=False)` is an insertion sort with a descending
  key order in which a missing key sorts last (pandas `na_position='last'`);
  the program's default `kind='quicksort'` leaves the order of equal keys
  unspecified, so only tie-order-independent properties are stated about
  the sorted reports,
* `groupby(key)` enumerates the distinct key values in ascending order
  (pandas `sort=True`) and aggregates the rows of each group.
-/

namespace GoMode

/-- Nanoseconds in one day, the unit underlying pandas `Timedelta.days`. -/
def nsPerDay : ℤ := 86400000000000

/-- `(b - a).dt.days` for two nullable timestamps: `none` if either endpoint is
missing, otherwise the floor of the difference in days (so it can be negative). -/
def tdiffDays (a b : Option ℤ) : Option ℤ :=
  match a, b with
  | some x, some y => some (Int.fdiv (y - x) nsPerDay)
  | _, _ => none

/-- One character of Python's `str.lower()`: the Unicode simple lowercase
mapping, restricted to the ASCII uppercase range `A`–`Z` and the Latin-1
uppercase range `À`–`Þ` (excluding the multiplication sign `×`), both of
which map by adding 32; every other character is unchanged.  This covers the
whole alphabet of the localized status strings, in particular `É` → `é`. -/
def pyLower (c : Char) : Char :=
  if ('A' ≤ c ∧ c ≤ 'Z') ∨ (('À' ≤ c ∧ c ≤ 'Þ') ∧ c ≠ '×') then
    Char.ofNat (c.toNat + 32)
  else c

/-- Lower-cased character list of a string, modelling `str.lower()`. -/
def lowerList (s : String) : List Char := s.toList.map pyLower

/-- The localized token for "delivered" used by `str.contains("livré")`. -/
def tokLivre : List Char := "livré".toList

/-- The localized token for "returned" used by `str.contains("retour")`. -/
def tokRetour : List Char := "retour".toList

/-- `pd.to_datetime(v, errors='coerce')` on one cell: a missing cell stays
missing and a value the parser rejects becomes missing; no error is raised. -/
def toDatetimeCoerce (parse : String → Option ℤ) (v : Option String) : Option ℤ :=
  v.bind parse

/-- One raw CSV row of `merged_yalidine.csv`, restricted to the columns the
pipeline reads.  Nullable cells are `Option`s. -/
structure RawRow where
  date_creation : Option String
  date_expedition : Option String
  date_last_status : Option String
  date_commande : Option String
  last_status : String
  montant_total : Option ℤ
  has_recouvrement : Option ℤ
  order_id : ℕ
  to_wilaya_name : String
  product : String
  deriving DecidableEq

/-- The raw CSV: its rows plus whether the optional column
`Date de commande` is present at all. -/
structure RawTable where
  hasCommandeCol : Bool
  rows : List RawRow
  deriving DecidableEq

/-- One row of the derived dataframe produced by `load_data`. -/
structure Row where
  date_creation : Option ℤ
  date_expedition : Option ℤ
  date_last_status : Option ℤ
  date_commande : Option ℤ
  commande_to_creation_days : Option ℤ
  commande_to_expedition_days : Option ℤ
  commande_to_last_status_days : Option ℤ
  delivered : Bool
  returned : Bool
  delivery_delay_days : Option ℤ
  processing_time_days : Option ℤ
  revenue : ℤ
  lost_revenue : ℤ
  success_revenue : ℤ
  has_recouvrement : ℤ
  order_id : ℕ
  to_wilaya_name : String
  product : String
  last_status : String
  deriving DecidableEq

/-- The row-wise body of `load_data` (src/app.py lines 33–51): parse the four
date columns with coercion, derive the day-difference columns, the
`delivered`/`returned` flags, and the revenue split. -/
def loadRow (parse : String → Option ℤ) (hasCommande : Bool) (r : RawRow) : Row :=
  let dc := toDatetimeCoerce parse r.date_creation
  let de := toDatetimeCoerce parse r.date_expedition
  let dls := toDatetimeCoerce parse r.date_last_status
  let dcmd := if hasCommande then toDatetimeCoerce parse r.date_commande else none
  let delivered := decide (tokLivre <:+: lowerList r.last_status)
  let returned := decide (tokRetour <:+: lowerList r.last_status)
  let revenue := r.montant_total.getD 0
  { date_creation := dc
    date_expedition := de
    date_last_status := dls
    date_commande := dcmd
    commande_to_creation_days := tdiffDays dcmd dc
    commande_to_expedition_days := tdiffDays dcmd de
    commande_to_last_status_days := tdiffDays dcmd dls
    delivered := delivered
    returned := returned
    delivery_delay_days := tdiffDays de dls
    processing_time_days := tdiffDays dc de
    revenue := revenue
    lost_revenue := if returned then revenue else 0
    success_revenue := if delivered then revenue else 0
    has_recouvrement := r.has_recouvrement.getD 0
    order_id := r.order_id
    to_wilaya_name := r.to_wilaya_name
    product := r.product
    last_status := r.last_status }

/-- `load_data`: the whole derived table, one derived row per raw row. -/
def load_data (parse : String → Option ℤ) (t : RawTable) : List Row :=
  t.rows.map (loadRow parse t.hasCommandeCol)

/-! ### Sorting (`sort_values(ascending=False)` with `na_position='last'`) -/

/-- Descending key comparison on nullable keys: `roge a b` holds when row key
`a` may come before row key `b` in a descending sort, a missing key sorting
last (pandas `na_position='last'`). -/
def roge (a b : Option ℚ) : Bool :=
  match a, b with
  | _, none => true
  | none, some _ => false
  | some x, some y => decide (y ≤ x)

theorem roge_refl (a : Option ℚ) : roge a a = true := by
  cases a <;> simp [roge]

theorem roge_total (a b : Option ℚ) : roge a b = true ∨ roge b a = true := by
  cases a <;> cases b <;> simp only [roge, decide_eq_true_eq] <;> simp [le_total]

theorem roge_trans {a b c : Option ℚ} (h₁ : roge a b = true) (h₂ : roge b c = true) :
    roge a c = true := by
  cases a <;> cases b <;> cases c <;> simp_all [roge]
  exact le_trans h₂ h₁

instance rogeKeyTotal {α : Type} (key : α → Option ℚ) :
    IsTotal α (fun a b => roge (key a) (key b) = true) :=
  ⟨fun a b => roge_total (key a) (key b)⟩

instance rogeKeyTrans {α : Type} (key : α → Option ℚ) :
    IsTrans α (fun a b => roge (key a) (key b) = true) :=
  ⟨fun _ _ _ => roge_trans⟩

/-- `sort_values(by=key, ascending=False)`: descending on the key, missing
keys last.  Realized here as an insertion sort; the program's default
`kind='quicksort'` leaves the relative order of equal keys unspecified, so
only properties independent of tie order are proved about sorted reports. -/
def sortDesc {α : Type} (key : α → Option ℚ) (l : List α) : List α :=
  List.insertionSort (fun a b => roge (key a) (key b) = true) l

/-! ### Grouping (`groupby(k)` with default `sort=True`) -/

/-- The distinct values of the grouping key, in ascending order
(pandas `groupby` sorts group keys by default). -/
def keysOf (k : Row → String) (t : List Row) : List String :=
  List.insertionSort (· ≤ ·) ((t.map k).dedup)

/-- The rows of one group. -/
def groupRows (k : Row → String) (t : List Row) (s : String) : List Row :=
  t.filter (fun r => k r == s)

/-- Mean of a boolean column (pandas `mean` of a bool series). -/
def boolRate (l : List Bool) : ℚ := ((l.countP id : ℤ) : ℚ) / (l.length : ℚ)

/-- Mean of an integer column. -/
def intMean (l : List ℤ) : ℚ := ((l.sum : ℚ)) / (l.length : ℚ)

/-- Mean of a nullable column, skipping missing values (pandas `Series.mean`
with `skipna`): `none` when every value is missing. -/
def colMean (l : List (Option ℤ)) : Option ℚ :=
  let v := l.filterMap id
  if v.isEmpty then none else some (((v.sum : ℤ) : ℚ) / (v.length : ℚ))

/-- `m > c` for a nullable aggregate: an undefined mean (`NaN`) compares
false, as in Python. -/
def gtQ (m : Option ℚ) (c : ℚ) : Bool :=
  match m with
  | none => false
  | some v => decide (c < v)

/-! ### Reports -/

/-- Sort key of the bottleneck report: the delivery delay as a nullable
rational. -/
def delayKey (r : Row) : Option ℚ := r.delivery_delay_days.map (fun z => (z : ℚ))

/-- `slow_orders` (src/app.py line 106/238): the ten highest-delay rows,
descending, missing delays last. -/
def slow_orders (t : List Row) : List Row :=
  (sortDesc delayKey t).take 10

/-- One row of the per-wilaya summary `wilaya_stats` (src/app.py lines
139–143). -/
structure WStat where
  to_wilaya_name : String
  orders : ℕ
  revenue : ℤ
  return_rate : ℚ
  deriving DecidableEq

/-- `wilaya_stats`: order count, summed success revenue and mean return rate
per destination wilaya. -/
def wilaya_stats (t : List Row) : List WStat :=
  (keysOf Row.to_wilaya_name t).map fun s =>
    let g := groupRows Row.to_wilaya_name t s
    ⟨s, g.length, (g.map Row.success_revenue).sum, boolRate (g.map Row.returned)⟩

/-- One row of the high-risk report `risk_df` (src/app.py lines 180–184). -/
structure RStat where
  to_wilaya_name : String
  return_rate : ℚ
  rec_rate : ℚ
  orders : ℕ
  deriving DecidableEq

/-- The per-wilaya aggregates feeding `risk_df`, before filtering. -/
def riskGroups (t : List Row) : List RStat :=
  (keysOf Row.to_wilaya_name t).map fun s =>
    let g := groupRows Row.to_wilaya_name t s
    ⟨s, boolRate (g.map Row.returned), intMean (g.map Row.has_recouvrement), g.length⟩

/-- `risk_df`: per-wilaya return rate, recouvrement rate and order count,
restricted to groups with more than 10 orders (`query("orders > 10")`),
sorted descending by return rate. -/
def risk_df (t : List Row) : List RStat :=
  sortDesc (fun g => some g.return_rate)
    ((riskGroups t).filter (fun g => decide (10 < g.orders)))

/-- The per-product sizes of the returned-rows groups
(`df[df['returned']].groupby(product_col).size()`), keys ascending. -/
def returnGroups (t : List Row) : List (String × ℕ) :=
  let rt := t.filter (fun r => r.returned)
  (keysOf Row.product rt).map fun s => (s, (groupRows Row.product rt s).length)

/-- Sort key of the most-returned-products report: the group size as a
rational. -/
def countKey (g : String × ℕ) : Option ℚ := some ((g.2 : ℤ) : ℚ)

/-- `top_returns` (src/app.py line 163): the ten products with the most
returned orders, descending by count. -/
def top_returns (t : List Row) : List (String × ℕ) :=
  (sortDesc countKey (returnGroups t)).take 10

/-! ### Insights (src/app.py lines 120–126) -/

/-- Advisory emitted when mean processing time exceeds 1 day. -/
def msgProcessing : String :=
  "Order processing is slow. Consider optimizing warehouse or admin processes."

/-- Advisory emitted when mean delivery delay exceeds 2 days. -/
def msgShipping : String :=
  "Shipping times are high. Investigate courier or route efficiency."

/-- Fallback emitted when no predicate fires. -/
def msgNoBottleneck : String :=
  "No major bottlenecks detected. Keep monitoring for improvements!"

/-- Mean of the `processing_time_days` column. -/
def procMean (t : List Row) : Option ℚ := colMean (t.map Row.processing_time_days)

/-- Mean of the `delivery_delay_days` column. -/
def delayMean (t : List Row) : Option ℚ := colMean (t.map Row.delivery_delay_days)

/-- The `insights` list: the processing advisory if mean processing time
exceeds 1 day, then the shipping advisory if mean delivery delay exceeds
2 days, and the fixed fallback string when the list would be empty. -/
def insights (t : List Row) : List String :=
  let l : List String := []
  let l := if gtQ (procMean t) 1 then l ++ [msgProcessing] else l
  let l := if gtQ (delayMean t) 2 then l ++ [msgShipping] else l
  if l.isEmpty then [msgNoBottleneck] else l

/-! ### Sample inputs used by witness theorems -/

/-- A concrete timestamp parser for witnesses: two known date strings, all
other values unparsable. -/
def sampleParse : String → Option ℤ := fun s =>
  if s = "day0" then some 0
  else if s = "day3" then some (3 * nsPerDay)
  else none

/-- A raw row whose status contains both localized markers. -/
def sampleRaw : RawRow :=
  { date_creation := some "day0"
    date_expedition := some "day3"
    date_last_status := some "day3"
    date_commande := some "day0"
    last_status := "LIVRÉ puis RETOUR"
    montant_total := some 2500
    has_recouvrement := none
    order_id := 1
    to_wilaya_name := "Alger"
    product := "Sac" }

/-- A raw row with inverted creation/dispatch timestamps. -/
def sampleRawInverted : RawRow :=
  { sampleRaw with
    date_creation := some "day3"
    date_expedition := some "day0"
    last_status := "Retourné" }

/-- A raw row that is delivered only. -/
def sampleRawDelivered : RawRow :=
  { sampleRaw with last_status := "livré" }

/-! ### Helper lemmas -/

theorem tdiffDays_eq_none_iff (a b : Option ℤ) :
    tdiffDays a b = none ↔ a = none ∨ b = none := by
  cases a <;> cases b <;> simp [tdiffDays]

theorem tdiffDays_some (x y : ℤ) :
    tdiffDays (some x) (some y) = some (Int.fdiv (y - x) nsPerDay) := rfl

theorem toDatetimeCoerce_eq_none_iff (parse : String → Option ℤ) (v : Option String) :
    toDatetimeCoerce parse v = none ↔
      v = none ∨ ∃ s, v = some s ∧ parse s = none := by
  cases v <;> simp [toDatetimeCoerce]

/-- A token is a substring of `l.map f` exactly when some substring of `l` is
mapped onto the token by `f`. -/
theorem substring_map_iff {α β : Type} (f : α → β) (tok : List β) (l : List α) :
    tok <:+: l.map f ↔ ∃ w, w <:+: l ∧ w.map f = tok := by
  constructor
  · rintro ⟨s, t, h⟩
    have h' : List.map f l = (s ++ tok) ++ t := h.symm
    rcases List.map_eq_append_iff.mp h' with ⟨l₁, l₂, rfl, h₁, -⟩
    rcases List.map_eq_append_iff.mp h₁ with ⟨l₃, l₄, rfl, -, h₄⟩
    exact ⟨l₄, ⟨l₃, l₂, by simp⟩, h₄⟩
  · rintro ⟨w, ⟨s, t, rfl⟩, hmap⟩
    exact ⟨s.map f, t.map f, by simp [hmap]⟩

/-! ### C1: derived day-difference columns -/

/-- C1: every derived day-difference column (`processing_time_days`,
`commande_to_creation_days`, `commande_to_expedition_days`,
`commande_to_last_status_days`, `delivery_delay_days`) is missing exactly when
one of its endpoint timestamps is missing; otherwise `processing_time_days` is
the floor day difference dispatch − creation, equal to `k` whenever the two
timestamps are exactly `k` whole days apart; and it can be negative when the
timestamps are inverted. -/
theorem day_diff_columns (parse : String → Option ℤ) (hc : Bool) (r : RawRow) :
    ((loadRow parse hc r).processing_time_days = none ↔
      ((loadRow parse hc r).date_creation = none ∨
        (loadRow parse hc r).date_expedition = none)) ∧
    (∀ c e, (loadRow parse hc r).date_creation = some c →
      (loadRow parse hc r).date_expedition = some e →
      (loadRow parse hc r).processing_time_days = some (Int.fdiv (e - c) nsPerDay)) ∧
    (∀ c e k, (loadRow parse hc r).date_creation = some c →
      (loadRow parse hc r).date_expedition = some e → e - c = k * nsPerDay →
      (loadRow parse hc r).processing_time_days = some k) ∧
    ((loadRow parse hc r).commande_to_creation_days = none ↔
      ((loadRow parse hc r).date_commande = none ∨
        (loadRow parse hc r).date_creation = none)) ∧
    ((loadRow parse hc r).commande_to_expedition_days = none ↔
      ((loadRow parse hc r).date_commande = none ∨
        (loadRow parse hc r).date_expedition = none)) ∧
    ((loadRow parse hc r).commande_to_last_status_days = none ↔
      ((loadRow parse hc r).date_commande = none ∨
        (loadRow parse hc r).date_last_status = none)) ∧
    ((loadRow parse hc r).delivery_delay_days = none ↔
      ((loadRow parse hc r).date_expedition = none ∨
        (loadRow parse hc r).date_last_status = none)) ∧
    (∃ p h rr k, (loadRow p h rr).processing_time_days = some k ∧ k < 0) := by
  refine ⟨tdiffDays_eq_none_iff _ _, ?_, ?_, tdiffDays_eq_none_iff _ _,
    tdiffDays_eq_none_iff _ _, tdiffDays_eq_none_iff _ _, tdiffDays_eq_none_iff _ _, ?_⟩
  · intro c e h₁ h₂
    simp only [loadRow] at h₁ h₂ ⊢
    rw [h₁, h₂, tdiffDays_some]
  · intro c e k h₁ h₂ h₃
    simp only [loadRow] at h₁ h₂ ⊢
    rw [h₁, h₂, tdiffDays_some, h₃,
      Int.mul_fdiv_cancel _ (by norm_num [nsPerDay])]
  · refine ⟨sampleParse, true, sampleRawInverted, -3, ?_, by norm_num⟩
    have h₁ : (loadRow sampleParse true sampleRawInverted).date_creation =
        some (3 * nsPerDay) := rfl
    have h₂ : (loadRow sampleParse true sampleRawInverted).date_expedition =
        some 0 := rfl
    simp only [loadRow] at h₁ h₂ ⊢
    rw [h₁, h₂, tdiffDays_some]
    have h₃ : (0 : ℤ) - 3 * nsPerDay = (-3) * nsPerDay := by ring
    rw [h₃, Int.mul_fdiv_cancel _ (by norm_num [nsPerDay])]

/-- Witness for C1 at a concrete input: three whole days between creation and
dispatch yield `processing_time_days = 3`. -/
theorem day_diff_columns_witness :
    (loadRow sampleParse true sampleRaw).processing_time_days = some 3 :=
  (day_diff_columns sampleParse true sampleRaw).2.2.1 0 (3 * nsPerDay) 3
    rfl rfl (by ring)

/-! ### C2: status flags -/

/-- C2: `delivered` holds exactly when the status text contains the localized
token "livré" case-insensitively (under Python's lower-casing, so for example
the all-caps accented "LIVRÉ" matches), `returned` exactly when it contains
"retour" case-insensitively; the flags are independent and a status containing
both markers sets both. -/
theorem status_flags (parse : String → Option ℤ) (hc : Bool) (r : RawRow) :
    ((loadRow parse hc r).delivered = true ↔
      ∃ w, w <:+: r.last_status.toList ∧ w.map pyLower = tokLivre) ∧
    ((loadRow parse hc r).returned = true ↔
      ∃ w, w <:+: r.last_status.toList ∧ w.map pyLower = tokRetour) ∧
    (∃ p h rr, (loadRow p h rr).delivered = true ∧ (loadRow p h rr).returned = true) := by
  refine ⟨?_, ?_, ⟨sampleParse, true, sampleRaw, by decide, by decide⟩⟩
  · have h : (loadRow parse hc r).delivered =
        decide (tokLivre <:+: lowerList r.last_status) := rfl
    rw [h, decide_eq_true_eq, lowerList, substring_map_iff]
  · have h : (loadRow parse hc r).returned =
        decide (tokRetour <:+: lowerList r.last_status) := rfl
    rw [h, decide_eq_true_eq, lowerList, substring_map_iff]

/-- Witness for C2: the all-caps accented status "LIVRÉ puis RETOUR" sets both
flags. -/
theorem status_flags_witness :
    (loadRow sampleParse true sampleRaw).delivered = true ∧
      (loadRow sampleParse true sampleRaw).returned = true :=
  ⟨(status_flags sampleParse true sampleRaw).1.mpr
      ⟨"LIVRÉ".toList, by decide, by decide⟩,
    (status_flags sampleParse true sampleRaw).2.1.mpr
      ⟨"RETOUR".toList, by decide, by decide⟩⟩

/-! ### C3: revenue split -/

/-- C3: `revenue` is the order total with missing treated as zero and the
missing cash-collected flag is filled with zero; when exactly one of the
`delivered`/`returned` flags is set, the flagged one of
`success_revenue`/`lost_revenue` equals `revenue`, the other is `0`, and their
sum is `revenue`. -/
theorem revenue_split (parse : String → Option ℤ) (hc : Bool) (r : RawRow) :
    ((loadRow parse hc r).revenue = r.montant_total.getD 0) ∧
    ((loadRow parse hc r).has_recouvrement = r.has_recouvrement.getD 0) ∧
    ((loadRow parse hc r).delivered = true → (loadRow parse hc r).returned = false →
      (loadRow parse hc r).success_revenue = (loadRow parse hc r).revenue ∧
      (loadRow parse hc r).lost_revenue = 0 ∧
      (loadRow parse hc r).success_revenue + (loadRow parse hc r).lost_revenue =
        (loadRow parse hc r).revenue) ∧
    ((loadRow parse hc r).delivered = false → (loadRow parse hc r).returned = true →
      (loadRow parse hc r).lost_revenue = (loadRow parse hc r).revenue ∧
      (loadRow parse hc r).success_revenue = 0 ∧
      (loadRow parse hc r).success_revenue + (loadRow parse hc r).lost_revenue =
        (loadRow parse hc r).revenue) := by
  have hsucc : (loadRow parse hc r).success_revenue =
      if (loadRow parse hc r).delivered then (loadRow parse hc r).revenue else 0 := rfl
  have hlost : (loadRow parse hc r).lost_revenue =
      if (loadRow parse hc r).returned then (loadRow parse hc r).revenue else 0 := rfl
  refine ⟨rfl, rfl, ?_, ?_⟩ <;> intro h₁ h₂ <;>
    rw [hsucc, hlost, h₁, h₂] <;> simp

/-- Witness for C3 at a delivered-only record: the whole revenue is counted as
success revenue and none as lost. -/
theorem revenue_split_witness :
    (loadRow sampleParse true sampleRawDelivered).success_revenue =
        (loadRow sampleParse true sampleRawDelivered).revenue ∧
      (loadRow sampleParse true sampleRawDelivered).lost_revenue = 0 ∧
      (loadRow sampleParse true sampleRawDelivered).success_revenue +
          (loadRow sampleParse true sampleRawDelivered).lost_revenue =
        (loadRow sampleParse true sampleRawDelivered).revenue :=
  (revenue_split sampleParse true sampleRawDelivered).2.2.1 (by decide) (by decide)

/-! ### C6: the schema normalizer never fails -/

/-- C6: parsing is total — a date cell comes out missing exactly when it was
missing or its value fails to parse (never an error), and when the
`Date de commande` column is structurally absent every record's `date_commande`
is missing. -/
theorem normalizer_total (parse : String → Option ℤ) (hc : Bool) (r : RawRow) :
    ((loadRow parse hc r).date_creation = none ↔
      (r.date_creation = none ∨ ∃ s, r.date_creation = some s ∧ parse s = none)) ∧
    ((loadRow parse hc r).date_expedition = none ↔
      (r.date_expedition = none ∨ ∃ s, r.date_expedition = some s ∧ parse s = none)) ∧
    ((loadRow parse hc r).date_last_status = none ↔
      (r.date_last_status = none ∨ ∃ s, r.date_last_status = some s ∧ parse s = none)) ∧
    ((loadRow parse true r).date_commande = none ↔
      (r.date_commande = none ∨ ∃ s, r.date_commande = some s ∧ parse s = none)) ∧
    (loadRow parse false r).date_commande = none := by
  exact ⟨toDatetimeCoerce_eq_none_iff parse r.date_creation,
    toDatetimeCoerce_eq_none_iff parse r.date_expedition,
    toDatetimeCoerce_eq_none_iff parse r.date_last_status,
    toDatetimeCoerce_eq_none_iff parse r.date_commande, rfl⟩

/-- Witness for C6: an unparsable creation date becomes missing, and with the
commande column absent the commande timestamp is missing. -/
theorem normalizer_total_witness :
    (loadRow sampleParse true
        { sampleRaw with date_creation := some "garbage" }).date_creation = none ∧
      (loadRow sampleParse false sampleRaw).date_commande = none :=
  ⟨(normalizer_total sampleParse true
        { sampleRaw with date_creation := some "garbage" }).1.mpr
      (Or.inr ⟨"garbage", rfl, rfl⟩),
    (normalizer_total sampleParse false sampleRaw).2.2.2.2⟩

/-! ### C9: determinism of the derivation pipeline -/

/-- C9: `load_data` is a pure function of the file contents — two loads of
equal raw tables produce identical derived tables. -/
theorem load_data_deterministic (parse : String → Option ℤ) (t₁ t₂ : RawTable)
    (h : t₁ = t₂) : load_data parse t₁ = load_data parse t₂ := by rw [h]

/-- Witness for C9 at a concrete raw table. -/
theorem load_data_deterministic_witness :
    load_data sampleParse ⟨true, [sampleRaw]⟩ = load_data sampleParse ⟨true, [sampleRaw]⟩ :=
  load_data_deterministic sampleParse ⟨true, [sampleRaw]⟩ ⟨true, [sampleRaw]⟩ rfl

/-! ### C7: insight rules -/

/-- C7: the insight list is, in fixed declaration order, the processing
advisory iff mean processing time exceeds 1 day, then the shipping advisory
iff mean delivery delay exceeds 2 days; when neither predicate fires it is
exactly the single fixed no-bottleneck string — the order is never a function
of the magnitudes. -/
theorem insights_fixed_order (t : List Row) :
    insights t =
      if gtQ (procMean t) 1 || gtQ (delayMean t) 2 then
        (if gtQ (procMean t) 1 then [msgProcessing] else []) ++
          (if gtQ (delayMean t) 2 then [msgShipping] else [])
      else [msgNoBottleneck] := by
  cases h₁ : gtQ (procMean t) 1 <;> cases h₂ : gtQ (delayMean t) 2 <;>
    simp [insights, h₁, h₂]

/-- Witness for C7: on the empty table neither predicate fires and the output
is exactly the single no-bottleneck string. -/
theorem insights_fixed_order_witness :
    insights [] = [msgNoBottleneck] :=
  (insights_fixed_order []).trans rfl

/-! ### C10: undefined aggregate means do not fire insight predicates -/

/-- C10: an undefined aggregate mean does not fire its insight predicate —
when every value of `processing_time_days` is missing, the processing mean is
undefined, the processing predicate compares false and the processing advisory
never appears (whatever the delay mean is), and symmetrically for
`delivery_delay_days`; in particular, with both columns entirely missing the
output is exactly the single no-bottleneck string. -/
theorem insights_undefined_means (t : List Row) :
    ((∀ r ∈ t, r.processing_time_days = none) →
      procMean t = none ∧ gtQ (procMean t) 1 = false ∧
        msgProcessing ∉ insights t) ∧
    ((∀ r ∈ t, r.delivery_delay_days = none) →
      delayMean t = none ∧ gtQ (delayMean t) 2 = false ∧
        msgShipping ∉ insights t) ∧
    ((∀ r ∈ t, r.processing_time_days = none) →
      (∀ r ∈ t, r.delivery_delay_days = none) →
      insights t = [msgNoBottleneck]) := by
  have hp : (∀ r ∈ t, r.processing_time_days = none) → procMean t = none := by
    intro h₁
    have h : (t.map Row.processing_time_days).filterMap id = [] := by
      rw [List.filterMap_map]
      exact List.filterMap_eq_nil_iff.mpr h₁
    simp [procMean, colMean, h]
  have hd : (∀ r ∈ t, r.delivery_delay_days = none) → delayMean t = none := by
    intro h₂
    have h : (t.map Row.delivery_delay_days).filterMap id = [] := by
      rw [List.filterMap_map]
      exact List.filterMap_eq_nil_iff.mpr h₂
    simp [delayMean, colMean, h]
  refine ⟨fun h₁ => ?_, fun h₂ => ?_, fun h₁ h₂ => ?_⟩
  · have hm := hp h₁
    have hg : gtQ (procMean t) 1 = false := by simp [gtQ, hm]
    refine ⟨hm, hg, ?_⟩
    cases hdg : gtQ (delayMean t) 2 <;>
      simp [insights, hg, hdg, msgProcessing, msgShipping, msgNoBottleneck]
  · have hm := hd h₂
    have hg : gtQ (delayMean t) 2 = false := by simp [gtQ, hm]
    refine ⟨hm, hg, ?_⟩
    cases hpg : gtQ (procMean t) 1 <;>
      simp [insights, hg, hpg, msgProcessing, msgShipping, msgNoBottleneck]
  · simp [insights, gtQ, hp h₁, hd h₂]

/-- Witness for C10 at a mixed concrete table: processing timestamps all
missing but a defined 3-day delivery delay — the processing predicate does not
fire and the processing advisory is absent, while the table is not in the
both-undefined case. -/
theorem insights_undefined_means_witness :
    gtQ (procMean (load_data sampleParse ⟨false, [{ sampleRaw with
        date_creation := none, date_expedition := some "day0" }]⟩)) 1 = false ∧
      msgProcessing ∉ insights (load_data sampleParse ⟨false, [{ sampleRaw with
        date_creation := none, date_expedition := some "day0" }]⟩) :=
  ⟨((insights_undefined_means (load_data sampleParse ⟨false, [{ sampleRaw with
        date_creation := none, date_expedition := some "day0" }]⟩)).1
      (by decide)).2.1,
    ((insights_undefined_means (load_data sampleParse ⟨false, [{ sampleRaw with
        date_creation := none, date_expedition := some "day0" }]⟩)).1
      (by decide)).2.2⟩

/-! ### C8: the per-wilaya aggregation partitions the table -/

theorem groupRows_length_eq_count (k : Row → String) (t : List Row) (s : String) :
    (groupRows k t s).length = (t.map k).count s := by
  rw [groupRows, ← List.countP_eq_length_filter, List.count_eq_countP,
    List.countP_map]
  rfl

theorem keysOf_perm_dedup (k : Row → String) (t : List Row) :
    List.Perm (keysOf k t) ((t.map k).dedup) :=
  List.perm_insertionSort _ _

/-- C8: the per-destination-wilaya summary has one row per distinct key value
present in the table (keys are distinct and exactly those occurring in the
input), and the group order counts sum to the total record count. -/
theorem wilaya_stats_partition (t : List Row) :
    ((wilaya_stats t).map WStat.orders).sum = t.length ∧
    ((wilaya_stats t).map WStat.to_wilaya_name).Nodup ∧
    (∀ s, s ∈ (wilaya_stats t).map WStat.to_wilaya_name ↔
      s ∈ t.map Row.to_wilaya_name) := by
  have hkey : (wilaya_stats t).map WStat.to_wilaya_name =
      keysOf Row.to_wilaya_name t := by
    rw [wilaya_stats, List.map_map]
    exact List.map_id _
  refine ⟨?_, ?_, ?_⟩
  · have horders : (wilaya_stats t).map WStat.orders =
        (keysOf Row.to_wilaya_name t).map
          (fun s => (groupRows Row.to_wilaya_name t s).length) := by
      rw [wilaya_stats, List.map_map]
      rfl
    rw [horders]
    have hperm : List.Perm
        ((keysOf Row.to_wilaya_name t).map
          (fun s => (groupRows Row.to_wilaya_name t s).length))
        (((t.map Row.to_wilaya_name).dedup).map
          (fun s => (groupRows Row.to_wilaya_name t s).length)) :=
      (keysOf_perm_dedup Row.to_wilaya_name t).map _
    rw [hperm.sum_eq]
    have hcount : ((t.map Row.to_wilaya_name).dedup).map
          (fun s => (groupRows Row.to_wilaya_name t s).length) =
        ((t.map Row.to_wilaya_name).dedup).map
          (fun s => (t.map Row.to_wilaya_name).count s) := by
      exact List.map_congr_left fun s _ =>
        groupRows_length_eq_count Row.to_wilaya_name t s
    rw [hcount, List.sum_map_count_dedup_eq_length, List.length_map]
  · rw [hkey]
    exact ((keysOf_perm_dedup Row.to_wilaya_name t).symm).nodup
      (List.nodup_dedup _)
  · intro s
    rw [hkey, keysOf, List.mem_insertionSort, List.mem_dedup]

/-- Witness for C8: a three-row, two-wilaya table has group counts summing to
three, distinct keys, and exactly the input's key set. -/
theorem wilaya_stats_partition_witness :
    (((wilaya_stats (load_data sampleParse
        ⟨true, [sampleRaw, sampleRawInverted,
          { sampleRaw with to_wilaya_name := "Oran" }]⟩)).map WStat.orders).sum =
      3) ∧
    ("Oran" ∈ (wilaya_stats (load_data sampleParse
        ⟨true, [sampleRaw, sampleRawInverted,
          { sampleRaw with to_wilaya_name := "Oran" }]⟩)).map WStat.to_wilaya_name) := by
  constructor
  · rw [(wilaya_stats_partition _).1]
    rfl
  · rw [(wilaya_stats_partition _).2.2]
    decide

/-! ### C5: the high-risk report -/

/-- C5: every row of `risk_df` has order count strictly greater than 10, and
the rows are sorted descending by return rate. -/
theorem risk_df_gt10_sorted (t : List Row) :
    (∀ g ∈ risk_df t, 10 < g.orders) ∧
    (risk_df t).Pairwise (fun a b => b.return_rate ≤ a.return_rate) := by
  constructor
  · intro g hg
    have hmem : g ∈ (riskGroups t).filter (fun g => decide (10 < g.orders)) :=
      (List.mem_insertionSort _).mp hg
    exact of_decide_eq_true (List.mem_filter.mp hmem).2
  · have hs := List.sorted_insertionSort
      (fun a b : RStat => roge (some a.return_rate) (some b.return_rate) = true)
      ((riskGroups t).filter (fun g => decide (10 < g.orders)))
    refine hs.imp ?_
    intro a b h
    simpa [roge] using h

unseal Rat.mul Rat.inv Rat.add in
/-- Witness for C5: an 11-order wilaya survives the `orders > 10` filter and
the theorem yields its count bound. -/
theorem risk_df_gt10_sorted_witness :
    10 < (RStat.mk "Alger" 1 0 11).orders :=
  (risk_df_gt10_sorted
      (load_data sampleParse ⟨true, List.replicate 11 sampleRaw⟩)).1
    ⟨"Alger", 1, 0, 11⟩ (by decide)

end GoMode
